import Mathlib

/-
Verification development for the ENet-CPP multi-threaded connection-dispatch
core (include/enetcpp/enetcpp-mt.hpp and the enetcpp.hpp wrapper).

The ConnectionThread class is embedded as a state record plus a small-step
machine for its run() loop.  Packets are identified by natural numbers (the
ENetPacket pointer identity).  Each critical section of the C++ code (a
region executed under the lock_guard on the actor mutex) becomes one atomic
step of the machine; the supervisor-side operations queue_packet, wake and
quit, which also each run under one lock_guard, become atomic interleaved
labels.  The ghost field handled records, in order, the packets passed to
the virtual handle() callback by the run() loop.
-/

namespace ENetCPP

/-- State of one ConnectionThread (enetcpp-mt.hpp lines 71 to 247): the
FIFO packet queue m_packet_queue (std::queue, push at tail / pop at head),
the flags m_should_quit, m_launched, m_should_wake, and the ghost trace
handled of packets passed to the handle() callback in invocation order. -/
structure ConnectionThread where
  m_packet_queue : List Nat
  m_should_quit : Bool
  m_launched : Bool
  m_should_wake : Bool
  handled : List Nat
deriving DecidableEq

/-- queue_packet (lines 165 to 168): under the lock, push the packet at the
tail of m_packet_queue. -/
def ConnectionThread.queue_packet (s : ConnectionThread) (p : Nat) : ConnectionThread :=
  { s with m_packet_queue := s.m_packet_queue ++ [p] }

/-- dequeue_packet (lines 175 to 182): under the lock, return NULL when the
queue size is 0, otherwise pop and return the front packet. -/
def ConnectionThread.dequeue_packet (s : ConnectionThread) : Option Nat × ConnectionThread :=
  match s.m_packet_queue with
  | [] => (none, s)
  | p :: rest => (some p, { s with m_packet_queue := rest })

/-- wake (lines 106 to 112): under the lock, set m_should_wake, then notify
the condition variable. -/
def ConnectionThread.wake (s : ConnectionThread) : ConnectionThread :=
  { s with m_should_wake := true }

/-- quit (lines 190 to 193): under the lock, set m_should_quit. -/
def ConnectionThread.quit (s : ConnectionThread) : ConnectionThread :=
  { s with m_should_quit := true }

/-- should_quit (lines 199 to 202): under the lock, read m_should_quit. -/
def ConnectionThread.should_quit (s : ConnectionThread) : Bool :=
  s.m_should_quit

/-- queue_size (lines 208 to 211): under the lock, read the queue size. -/
def ConnectionThread.queue_size (s : ConnectionThread) : Nat :=
  s.m_packet_queue.length

/-- The wait predicate of sleep (lines 119 to 122): the lambda passed to
the condition-variable wait reads only m_should_wake. -/
def ConnectionThread.sleepPredicate (s : ConnectionThread) : Bool :=
  s.m_should_wake

/-- handle (line 220): the virtual extension point invoked by run() on each
dequeued packet.  The model records the invocation in the ghost trace; the
default C++ body is a no-op. -/
def ConnectionThread.handle (s : ConnectionThread) (p : Nat) : ConnectionThread :=
  { s with handled := s.handled ++ [p] }

/-- launch (lines 142 to 145): set m_launched and start the worker thread;
the started run() loop is modeled by the step machine below, beginning at
program point sleeping. -/
def ConnectionThread.launch (s : ConnectionThread) : ConnectionThread :=
  { s with m_launched := true }

/-- Program points of the run() loop (lines 228 to 246), one per critical
section: sleeping is the condition-variable wait inside sleep(); clearWake
is the block that resets m_should_wake after sleep() returns; drain is the
while loop over queue_size / dequeue_packet / handle; checkQuit is the
final should_quit() test of the loop body; done means run() has returned. -/
inductive PC
  | sleeping
  | clearWake
  | drain
  | checkQuit
  | done
deriving DecidableEq

/-- One interleaved configuration: the shared ConnectionThread state plus
the program point of the worker thread inside run(). -/
structure Config where
  ct : ConnectionThread
  pc : PC
deriving DecidableEq

/-- One atomic transition of the worker thread inside run().  From sleeping
the thread proceeds only when the wait predicate m_should_wake holds (none
models the thread staying blocked in the condition-variable wait).  The
drain point performs one iteration of the while loop: the queue_size() test,
then on a positive size dequeue_packet and, when the returned packet is not
NULL, the handle() call; on size 0 the loop exits to the should_quit()
test.  From done there is no further transition. -/
def actorStep (c : Config) : Option Config :=
  match c.pc with
  | PC.sleeping =>
      if c.ct.m_should_wake then some ⟨c.ct, PC.clearWake⟩ else none
  | PC.clearWake => some ⟨{ c.ct with m_should_wake := false }, PC.drain⟩
  | PC.drain =>
      if c.ct.queue_size > 0 then
        match c.ct.dequeue_packet with
        | (some p, s) => some ⟨s.handle p, PC.drain⟩
        | (none, s) => some ⟨s, PC.drain⟩
      else some ⟨c.ct, PC.checkQuit⟩
  | PC.checkQuit =>
      if c.ct.should_quit then some ⟨c.ct, PC.done⟩ else some ⟨c.ct, PC.sleeping⟩
  | PC.done => none

/-- Labels of an interleaved execution: a supervisor-side call of
queue_packet, wake or quit, or one step of the worker thread (a blocked
worker step leaves the configuration unchanged). -/
inductive Label
  | enq (p : Nat)
  | wake
  | quit
  | actor
deriving DecidableEq

/-- Apply one labeled transition to a configuration. -/
def step (c : Config) : Label → Config
  | Label.enq p => ⟨c.ct.queue_packet p, c.pc⟩
  | Label.wake => ⟨c.ct.wake, c.pc⟩
  | Label.quit => ⟨c.ct.quit, c.pc⟩
  | Label.actor => (actorStep c).getD c

/-- Run a whole schedule of interleaved transitions. -/
def run (c : Config) (ls : List Label) : Config :=
  ls.foldl step c

/-- The configuration right after launch(): empty queue, no flags set,
m_launched true, worker thread at the sleep() call of run(). -/
def c0 : Config :=
  ⟨⟨[], false, true, false, []⟩, PC.sleeping⟩

/-- The packet argument of a queue_packet label, if any. -/
def Label.enqOf : Label → Option Nat
  | Label.enq p => some p
  | _ => none

/-- Whether a label is the quit() call. -/
def Label.isQuit : Label → Bool
  | Label.quit => true
  | _ => false

/-- The packets passed to queue_packet by a schedule, in call order. -/
def enqueued (ls : List Label) : List Nat :=
  ls.filterMap Label.enqOf

lemma enqueued_cons (l : Label) (ls : List Label) :
    enqueued (l :: ls) = enqueued [l] ++ enqueued ls := by
  cases l <;> simp [enqueued, Label.enqOf]

lemma run_nil (c : Config) : run c [] = c := rfl

lemma run_cons (c : Config) (l : Label) (ls : List Label) :
    run c (l :: ls) = run (step c l) ls := rfl

lemma run_append (c : Config) (ls ms : List Label) :
    run c (ls ++ ms) = run (run c ls) ms := by
  simp [run, List.foldl_append]

/-- One transition preserves the concatenation of the handle trace with the
pending queue, extended by whatever the label enqueues: packets enter at
the tail, leave at the head, and each leaving packet is appended to the
handle trace exactly once. -/
lemma step_handled_append (c : Config) (l : Label) :
    (step c l).ct.handled ++ (step c l).ct.m_packet_queue =
      (c.ct.handled ++ c.ct.m_packet_queue) ++ enqueued [l] := by
  rcases c with ⟨⟨q, sq, la, sw, hd⟩, pc⟩
  cases l with
  | enq p =>
      simp [step, ConnectionThread.queue_packet, enqueued, Label.enqOf]
  | wake => simp [step, ConnectionThread.wake, enqueued, Label.enqOf]
  | quit => simp [step, ConnectionThread.quit, enqueued, Label.enqOf]
  | actor =>
      cases pc with
      | sleeping =>
          cases sw <;> simp [step, actorStep, enqueued, Label.enqOf]
      | clearWake => simp [step, actorStep, enqueued, Label.enqOf]
      | drain =>
          cases q with
          | nil =>
              simp [step, actorStep, enqueued, Label.enqOf,
                ConnectionThread.queue_size]
          | cons p rest =>
              simp [step, actorStep, enqueued, Label.enqOf,
                ConnectionThread.queue_size, ConnectionThread.dequeue_packet,
                ConnectionThread.handle]
      | checkQuit =>
          cases sq <;>
            simp [step, actorStep, enqueued, Label.enqOf,
              ConnectionThread.should_quit]
      | done => simp [step, actorStep, enqueued, Label.enqOf]

/-- Across any schedule, the handle trace followed by the pending queue
equals the starting trace and queue followed by the packets enqueued by the
schedule, in enqueue order. -/
lemma run_handled_append (ls : List Label) :
    ∀ c : Config,
      (run c ls).ct.handled ++ (run c ls).ct.m_packet_queue =
        (c.ct.handled ++ c.ct.m_packet_queue) ++ enqueued ls := by
  induction ls with
  | nil => intro c; simp [run, enqueued]
  | cons l ls ih =>
      intro c
      rw [run_cons, ih (step c l), step_handled_append, enqueued_cons l ls,
        List.append_assoc]

/-- Every transition only ever appends to the handle trace: handle calls
are never retracted or reordered. -/
lemma step_handled_extend (c : Config) (l : Label) :
    ∃ t, (step c l).ct.handled = c.ct.handled ++ t := by
  rcases c with ⟨⟨q, sq, la, sw, hd⟩, pc⟩
  cases l with
  | enq p => exact ⟨[], by simp [step, ConnectionThread.queue_packet]⟩
  | wake => exact ⟨[], by simp [step, ConnectionThread.wake]⟩
  | quit => exact ⟨[], by simp [step, ConnectionThread.quit]⟩
  | actor =>
      cases pc with
      | sleeping =>
          cases sw <;> exact ⟨[], by simp [step, actorStep]⟩
      | clearWake => exact ⟨[], by simp [step, actorStep]⟩
      | drain =>
          cases q with
          | nil =>
              exact ⟨[], by
                simp [step, actorStep, ConnectionThread.queue_size]⟩
          | cons p rest =>
              exact ⟨[p], by
                simp [step, actorStep, ConnectionThread.queue_size,
                  ConnectionThread.dequeue_packet, ConnectionThread.handle]⟩
      | checkQuit =>
          cases sq <;>
            exact ⟨[], by simp [step, actorStep, ConnectionThread.should_quit]⟩
      | done => exact ⟨[], by simp [step, actorStep]⟩

/-- Across any schedule the handle trace is only extended. -/
lemma run_handled_extend (ls : List Label) :
    ∀ c : Config, ∃ t, (run c ls).ct.handled = c.ct.handled ++ t := by
  induction ls with
  | nil => intro c; exact ⟨[], by simp [run]⟩
  | cons l ls ih =>
      intro c
      obtain ⟨t1, h1⟩ := step_handled_extend c l
      obtain ⟨t2, h2⟩ := ih (step c l)
      exact ⟨t1 ++ t2, by rw [run_cons, h2, h1, List.append_assoc]⟩

/-- C1: every packet given to queue_packet is appended at the tail of the
FIFO queue and dequeued from its head by the run() loop, which passes it to
handle exactly once; across every interleaving the handle trace followed by
the still-pending queue equals the full enqueue sequence, so no packet is
skipped, duplicated or reordered, and whenever the queue has been drained
the run() loop has invoked handle exactly N times, once per packet, in
enqueue order. -/
theorem run_fifo_exact_delivery (ls : List Label) :
    (run c0 ls).ct.handled ++ (run c0 ls).ct.m_packet_queue = enqueued ls ∧
      ((run c0 ls).ct.m_packet_queue = [] →
        (run c0 ls).ct.handled = enqueued ls) := by
  have h := run_handled_append ls c0
  rw [show c0.ct.handled = [] from rfl, show c0.ct.m_packet_queue = [] from rfl,
    List.nil_append, List.nil_append] at h
  refine ⟨h, fun he => ?_⟩
  rwa [he, List.append_nil] at h

/-- A concrete run discharging the drained case of run_fifo_exact_delivery:
two packets enqueued, the actor woken and scheduled until its drain pass
ends, every packet handled once in enqueue order. -/
def fifoSched : List Label :=
  [Label.enq 1, Label.enq 2, Label.wake, Label.actor, Label.actor,
    Label.actor, Label.actor, Label.actor]

theorem run_fifo_exact_delivery_witness :
    (run c0 fifoSched).ct.handled ++ (run c0 fifoSched).ct.m_packet_queue =
        enqueued fifoSched ∧
      (run c0 fifoSched).ct.handled = enqueued fifoSched :=
  ⟨(run_fifo_exact_delivery fifoSched).1,
    (run_fifo_exact_delivery fifoSched).2 (by decide)⟩

/-- Reaching the should_quit() test of run() requires an earlier moment at
which the drain loop stood at its size test with an empty queue: checkQuit
is entered only from the drain point on queue size 0, and done only from
checkQuit. -/
lemma run_pc_checkQuit_or_done (ls : List Label) :
    ∀ c : Config, ((run c ls).pc = PC.checkQuit ∨ (run c ls).pc = PC.done) →
      (c.pc = PC.checkQuit ∨ c.pc = PC.done) ∨
        ∃ i, i ≤ ls.length ∧ (run c (ls.take i)).pc = PC.drain ∧
          (run c (ls.take i)).ct.m_packet_queue = [] := by
  induction ls with
  | nil => intro c h; exact Or.inl (by simpa [run] using h)
  | cons l ls ih =>
      intro c h
      rw [run_cons] at h
      rcases ih (step c l) h with hA | ⟨i, hi, hp, hq⟩
      · cases l with
        | enq p => exact Or.inl hA
        | wake => exact Or.inl hA
        | quit => exact Or.inl hA
        | actor =>
            rcases c with ⟨⟨q, sq, la, sw, hd⟩, pc⟩
            cases pc with
            | sleeping =>
                cases sw <;> simp [step, actorStep] at hA
            | clearWake => simp [step, actorStep] at hA
            | drain =>
                cases q with
                | nil =>
                    exact Or.inr ⟨0, Nat.zero_le _, by simp [run], by simp [run]⟩
                | cons p rest =>
                    simp [step, actorStep, ConnectionThread.queue_size,
                      ConnectionThread.dequeue_packet] at hA
            | checkQuit => exact Or.inl (Or.inl rfl)
            | done => exact Or.inl (Or.inr rfl)
      · exact Or.inr ⟨i + 1, Nat.succ_le_succ hi,
          by simpa [run_cons] using hp, by simpa [run_cons] using hq⟩

/-- The drain loop of run() observes an empty queue at position i of the
schedule: the worker stands at the size test of the while loop and the
queue is empty at that moment. -/
def drainObservesEmpty (ls : List Label) (i : Nat) : Prop :=
  (run c0 (ls.take i)).pc = PC.drain ∧
    (run c0 (ls.take i)).ct.m_packet_queue = []

/-- A schedule exhibiting the drain-and-quit race: quit() then wake() are
delivered, the woken actor drains packet 1, its drain loop observes the
queue empty, then packet 7 is enqueued, and only then does the loop observe
should_quit() true and return, dropping packet 7. -/
def raceSched : List Label :=
  [Label.enq 1, Label.quit, Label.wake, Label.actor, Label.actor,
    Label.actor, Label.actor, Label.enq 7, Label.actor]

/-- C2 counterexample: in raceSched the final label is the step in which
run() observes should_quit() true (the configuration just before it stands
at checkQuit with m_should_quit set) and packet 7 was enqueued strictly
before that observation, yet run() returns with packet 7 still pending and
never passed to handle, so the claimed delivery guarantee fails and the
thread terminates with a nonempty queue. -/
theorem quit_drain_race_cex :
    (run c0 raceSched).pc = PC.done ∧
      (run c0 raceSched).ct.handled = [1] ∧
      (run c0 raceSched).ct.m_packet_queue = [7] ∧
      raceSched.take 8 ++ [Label.actor] = raceSched ∧
      (run c0 (raceSched.take 8)).pc = PC.checkQuit ∧
      (run c0 (raceSched.take 8)).ct.m_should_quit = true ∧
      Label.enq 7 ∈ raceSched.take 8 ∧
      7 ∉ (run c0 raceSched).ct.handled := by decide

/-- C2 amended: the run() loop returns only after its drain loop has at
some earlier moment observed the queue empty, and every packet enqueued
strictly before any such emptiness observation has by then been passed to
handle and stays in the handle trace; a packet enqueued between the final
emptiness observation and the should_quit() observation may be dropped, so
the queue need not be empty when the thread terminates. -/
theorem quit_drain_amended (ls : List Label) :
    ((run c0 ls).pc = PC.done →
        ∃ i, i ≤ ls.length ∧ drainObservesEmpty ls i) ∧
      ∀ i, drainObservesEmpty ls i →
        ∃ t, (run c0 ls).ct.handled = enqueued (ls.take i) ++ t := by
  constructor
  · intro hdone
    rcases run_pc_checkQuit_or_done ls c0 (Or.inr hdone) with hA | hB
    · rcases hA with h | h <;> simp [c0] at h
    · exact hB
  · rintro i ⟨hp, hq⟩
    have h := run_handled_append (ls.take i) c0
    rw [show c0.ct.handled = [] from rfl, show c0.ct.m_packet_queue = [] from rfl,
      List.nil_append, List.nil_append, hq, List.append_nil] at h
    have hsplit : run c0 ls = run (run c0 (ls.take i)) (ls.drop i) := by
      rw [← run_append, List.take_append_drop]
    obtain ⟨t, ht⟩ := run_handled_extend (ls.drop i) (run c0 (ls.take i))
    exact ⟨t, by rw [hsplit, ht, h]⟩

/-- A schedule in which the actor, after quit() and wake(), drains packet 1
and terminates; its drain loop observes the queue empty at position 6. -/
def drainSched : List Label :=
  [Label.enq 1, Label.quit, Label.wake, Label.actor, Label.actor,
    Label.actor, Label.actor, Label.actor]

theorem quit_drain_amended_witness :
    (∃ i, i ≤ drainSched.length ∧ drainObservesEmpty drainSched i) ∧
      ∃ t, (run c0 drainSched).ct.handled =
        enqueued (drainSched.take 6) ++ t :=
  ⟨(quit_drain_amended drainSched).1 (by decide),
    (quit_drain_amended drainSched).2 6 ⟨by decide, by decide⟩⟩

/-- Run only the worker thread for a given number of steps, with no
supervisor interleaving (the supervisor is blocked, as during join). -/
def runActor (c : Config) : Nat → Config
  | 0 => c
  | n + 1 => runActor (step c Label.actor) n

lemma runActor_succ (c : Config) (n : Nat) :
    runActor c (n + 1) = runActor (step c Label.actor) n := rfl

lemma runActor_add (m n : Nat) :
    ∀ c : Config, runActor c (m + n) = runActor (runActor c m) n := by
  induction m with
  | zero => intro c; rw [Nat.zero_add]; rfl
  | succ m ih =>
      intro c
      rw [Nat.succ_add, runActor_succ, runActor_succ, ih]

/-- After run() has returned, the worker makes no further transition. -/
lemma runActor_done (s : ConnectionThread) (n : Nat) :
    runActor ⟨s, PC.done⟩ n = ⟨s, PC.done⟩ := by
  induction n with
  | zero => rfl
  | succ n ih => rw [runActor_succ, show step ⟨s, PC.done⟩ Label.actor = ⟨s, PC.done⟩ from rfl, ih]

/-- Running the drain loop alone for one step per queued packet plus the
final size test empties the queue, hands every pending packet to handle in
FIFO order, and leaves the worker at the should_quit() test. -/
lemma runActor_drain (q : List Nat) :
    ∀ s : ConnectionThread, s.m_packet_queue = q →
      runActor ⟨s, PC.drain⟩ (q.length + 1) =
        ⟨{ s with m_packet_queue := [], handled := s.handled ++ q },
          PC.checkQuit⟩ := by
  induction q with
  | nil =>
      rintro ⟨q, sq, la, sw, hd⟩ hq
      simp only at hq
      subst hq
      simp [runActor, step, actorStep, ConnectionThread.queue_size]
  | cons p rest ih =>
      rintro ⟨q, sq, la, sw, hd⟩ hq
      simp only at hq
      subst hq
      rw [show (p :: rest).length + 1 = rest.length + 1 + 1 from rfl, runActor_succ]
      rw [show step ⟨⟨p :: rest, sq, la, sw, hd⟩, PC.drain⟩ Label.actor =
          ⟨⟨rest, sq, la, sw, hd ++ [p]⟩, PC.drain⟩ by
        simp [step, actorStep, ConnectionThread.queue_size,
          ConnectionThread.dequeue_packet, ConnectionThread.handle]]
      rw [ih ⟨rest, sq, la, sw, hd ++ [p]⟩ rfl]
      simp

/-- From the drain point, with the quit flag already set, the worker drains
the whole queue, observes should_quit() true and returns, absorbing any
extra steps at done. -/
lemma runActor_drain_quit (s : ConnectionThread) (n : Nat)
    (hq : s.m_should_quit = true) :
    runActor ⟨s, PC.drain⟩ (s.m_packet_queue.length + 1 + 1 + n) =
      ⟨{ s with m_packet_queue := [], handled := s.handled ++ s.m_packet_queue },
        PC.done⟩ := by
  rw [show s.m_packet_queue.length + 1 + 1 + n =
      (s.m_packet_queue.length + 1) + (1 + n) by omega]
  rw [runActor_add, runActor_drain s.m_packet_queue s rfl]
  rw [show (1 : Nat) + n = n + 1 by omega, Nat.add_comm, runActor_add]
  rw [show runActor
      ⟨{ s with m_packet_queue := [], handled := s.handled ++ s.m_packet_queue },
        PC.checkQuit⟩ 1 =
      ⟨{ s with m_packet_queue := [], handled := s.handled ++ s.m_packet_queue },
        PC.done⟩ by
    simp [runActor, step, actorStep, ConnectionThread.should_quit, hq]]
  rw [runActor_done]

/-- on_event(EventDisconnect&) of HostMT (enetcpp-mt.hpp lines 289 to 295):
look up the ConnectionThread attached to the peer, call quit(), then
wake(), then join(), then delete it.  The join blocks the supervisor, so no
supervisor label interleaves: the worker runs alone until run() returns,
which the fuel m_packet_queue.length + 4 suffices for, and the Bool
component records that delete happens only once join has returned. -/
def HostMT.on_event_disconnect (c : Config) : Config × Bool :=
  let s2 := (c.ct.quit).wake
  (runActor ⟨s2, c.pc⟩ (s2.m_packet_queue.length + 4), true)

/-- C3: on a disconnect event the supervisor calls quit(), then wake(),
then join(), and deletes the ConnectionThread only after join returns: in
the resulting state the worker has reached the return of run() (so the
thread is joined before the object is freed and before the supervisor
proceeds to the next event), the quit flag is set, and an actor that was
asleep in sleep() has drained its whole pending queue into handle. -/
theorem disconnect_quit_wake_join_before_destroy (c : Config) :
    (HostMT.on_event_disconnect c).1.pc = PC.done ∧
      (HostMT.on_event_disconnect c).2 = true ∧
      (HostMT.on_event_disconnect c).1.ct.m_should_quit = true ∧
      (c.pc = PC.sleeping →
        (HostMT.on_event_disconnect c).1.ct.handled =
          c.ct.handled ++ c.ct.m_packet_queue) := by
  rcases c with ⟨⟨q, sq, la, sw, hd⟩, pc⟩
  cases pc with
  | sleeping =>
      have h1 : runActor ⟨⟨q, true, la, true, hd⟩, PC.sleeping⟩ (q.length + 4) =
          ⟨⟨[], true, la, false, hd ++ q⟩, PC.done⟩ := by
        rw [show q.length + 4 = 1 + (1 + (q.length + 1 + 1 + 0)) by omega,
          runActor_add,
          show runActor ⟨⟨q, true, la, true, hd⟩, PC.sleeping⟩ 1 =
              ⟨⟨q, true, la, true, hd⟩, PC.clearWake⟩ from by
            simp [runActor, step, actorStep],
          runActor_add,
          show runActor ⟨⟨q, true, la, true, hd⟩, PC.clearWake⟩ 1 =
              ⟨⟨q, true, la, false, hd⟩, PC.drain⟩ from by
            simp [runActor, step, actorStep]]
        simpa using runActor_drain_quit ⟨q, true, la, false, hd⟩ 0 rfl
      have key : HostMT.on_event_disconnect ⟨⟨q, sq, la, sw, hd⟩, PC.sleeping⟩ =
          (⟨⟨[], true, la, false, hd ++ q⟩, PC.done⟩, true) := by
        show (runActor ⟨⟨q, true, la, true, hd⟩, PC.sleeping⟩ (q.length + 4), true) = _
        rw [h1]
      rw [key]
      exact ⟨rfl, rfl, rfl, fun _ => rfl⟩
  | clearWake =>
      have h1 : runActor ⟨⟨q, true, la, true, hd⟩, PC.clearWake⟩ (q.length + 4) =
          ⟨⟨[], true, la, false, hd ++ q⟩, PC.done⟩ := by
        rw [show q.length + 4 = 1 + (q.length + 1 + 1 + 1) by omega,
          runActor_add,
          show runActor ⟨⟨q, true, la, true, hd⟩, PC.clearWake⟩ 1 =
              ⟨⟨q, true, la, false, hd⟩, PC.drain⟩ from by
            simp [runActor, step, actorStep]]
        simpa using runActor_drain_quit ⟨q, true, la, false, hd⟩ 1 rfl
      have key : HostMT.on_event_disconnect ⟨⟨q, sq, la, sw, hd⟩, PC.clearWake⟩ =
          (⟨⟨[], true, la, false, hd ++ q⟩, PC.done⟩, true) := by
        show (runActor ⟨⟨q, true, la, true, hd⟩, PC.clearWake⟩ (q.length + 4), true) = _
        rw [h1]
      rw [key]
      exact ⟨rfl, rfl, rfl, fun h => by simp at h⟩
  | drain =>
      have h1 : runActor ⟨⟨q, true, la, true, hd⟩, PC.drain⟩ (q.length + 4) =
          ⟨⟨[], true, la, true, hd ++ q⟩, PC.done⟩ := by
        rw [show q.length + 4 = q.length + 1 + 1 + 2 by omega]
        simpa using runActor_drain_quit ⟨q, true, la, true, hd⟩ 2 rfl
      have key : HostMT.on_event_disconnect ⟨⟨q, sq, la, sw, hd⟩, PC.drain⟩ =
          (⟨⟨[], true, la, true, hd ++ q⟩, PC.done⟩, true) := by
        show (runActor ⟨⟨q, true, la, true, hd⟩, PC.drain⟩ (q.length + 4), true) = _
        rw [h1]
      rw [key]
      exact ⟨rfl, rfl, rfl, fun h => by simp at h⟩
  | checkQuit =>
      have h1 : runActor ⟨⟨q, true, la, true, hd⟩, PC.checkQuit⟩ (q.length + 4) =
          ⟨⟨q, true, la, true, hd⟩, PC.done⟩ := by
        rw [show q.length + 4 = 1 + (q.length + 3) by omega, runActor_add,
          show runActor ⟨⟨q, true, la, true, hd⟩, PC.checkQuit⟩ 1 =
              ⟨⟨q, true, la, true, hd⟩, PC.done⟩ from by
            simp [runActor, step, actorStep, ConnectionThread.should_quit],
          runActor_done]
      have key : HostMT.on_event_disconnect ⟨⟨q, sq, la, sw, hd⟩, PC.checkQuit⟩ =
          (⟨⟨q, true, la, true, hd⟩, PC.done⟩, true) := by
        show (runActor ⟨⟨q, true, la, true, hd⟩, PC.checkQuit⟩ (q.length + 4), true) = _
        rw [h1]
      rw [key]
      exact ⟨rfl, rfl, rfl, fun h => by simp at h⟩
  | done =>
      have key : HostMT.on_event_disconnect ⟨⟨q, sq, la, sw, hd⟩, PC.done⟩ =
          (⟨⟨q, true, la, true, hd⟩, PC.done⟩, true) := by
        show (runActor ⟨⟨q, true, la, true, hd⟩, PC.done⟩ (q.length + 4), true) = _
        rw [runActor_done]
      rw [key]
      exact ⟨rfl, rfl, rfl, fun h => by simp at h⟩

/-- A sleeping actor with two pending packets, as a disconnect finds it. -/
def disconnectCfg : Config :=
  ⟨⟨[3, 4], false, true, false, []⟩, PC.sleeping⟩

theorem disconnect_quit_wake_join_before_destroy_witness :
    (HostMT.on_event_disconnect disconnectCfg).1.pc = PC.done ∧
      (HostMT.on_event_disconnect disconnectCfg).2 = true ∧
      (HostMT.on_event_disconnect disconnectCfg).1.ct.m_should_quit = true ∧
      (HostMT.on_event_disconnect disconnectCfg).1.ct.handled =
        disconnectCfg.ct.handled ++ disconnectCfg.ct.m_packet_queue :=
  ⟨(disconnect_quit_wake_join_before_destroy disconnectCfg).1,
    (disconnect_quit_wake_join_before_destroy disconnectCfg).2.1,
    (disconnect_quit_wake_join_before_destroy disconnectCfg).2.2.1,
    (disconnect_quit_wake_join_before_destroy disconnectCfg).2.2.2 rfl⟩

lemma wake_iterate (k : Nat) (s : ConnectionThread) :
    ConnectionThread.wake^[k + 1] s = s.wake := by
  induction k with
  | zero => rfl
  | succ k ih =>
      rw [Function.iterate_succ_apply', ih]
      rcases s with ⟨q, sq, la, sw, hd⟩
      rfl

/-- C9: wake() only sets m_should_wake, so any positive number of wake()
calls before the actor observes the flag leaves exactly the state of a
single call, and the one drain pass the coalesced wakes trigger (wake
observed in sleep(), flag cleared, drain loop run) empties the entire
queue, appending every pending packet to the handle trace exactly once in
FIFO order. -/
theorem wake_idempotent_and_coalesces (s : ConnectionThread) (k : Nat) :
    ConnectionThread.wake^[k + 1] s = s.wake ∧
      runActor ⟨ConnectionThread.wake^[k + 1] s, PC.sleeping⟩
          (s.m_packet_queue.length + 3) =
        ⟨{ s with
            m_should_wake := false
            m_packet_queue := []
            handled := s.handled ++ s.m_packet_queue }, PC.checkQuit⟩ := by
  refine ⟨wake_iterate k s, ?_⟩
  rw [wake_iterate k s]
  rcases s with ⟨q, sq, la, sw, hd⟩
  show runActor ⟨⟨q, sq, la, true, hd⟩, PC.sleeping⟩ (q.length + 3) = _
  rw [show q.length + 3 = 1 + (1 + (q.length + 1)) by omega, runActor_add,
    show runActor ⟨⟨q, sq, la, true, hd⟩, PC.sleeping⟩ 1 =
        ⟨⟨q, sq, la, true, hd⟩, PC.clearWake⟩ from by
      simp [runActor, step, actorStep],
    runActor_add,
    show runActor ⟨⟨q, sq, la, true, hd⟩, PC.clearWake⟩ 1 =
        ⟨⟨q, sq, la, false, hd⟩, PC.drain⟩ from by
      simp [runActor, step, actorStep],
    runActor_drain q ⟨q, sq, la, false, hd⟩ rfl]

/-- A worker asleep in sleep() with m_should_wake false stays blocked in
the condition-variable wait across any schedule of worker steps and quit()
calls: none of these makes the wait predicate true or signals anything the
predicate reads, so nothing is drained or handled. -/
lemma blocked_run (ls : List Label) :
    ∀ c : Config, (∀ l ∈ ls, l = Label.actor ∨ l = Label.quit) →
      c.pc = PC.sleeping → c.ct.m_should_wake = false →
      (run c ls).pc = PC.sleeping ∧
        (run c ls).ct.m_should_wake = false ∧
        (run c ls).ct.m_packet_queue = c.ct.m_packet_queue ∧
        (run c ls).ct.handled = c.ct.handled := by
  induction ls with
  | nil => intro c _ h1 h2; exact ⟨h1, h2, rfl, rfl⟩
  | cons l ls ih =>
      intro c hmem hpc hw
      have hl := hmem l (List.mem_cons_self l ls)
      have hrest : ∀ x ∈ ls, x = Label.actor ∨ x = Label.quit :=
        fun x hx => hmem x (List.mem_cons_of_mem l hx)
      rcases c with ⟨⟨q, sq, la, sw, hd⟩, pc⟩
      simp only at hpc hw
      subst hpc
      subst hw
      rcases hl with rfl | rfl
      · rw [run_cons,
          show step ⟨⟨q, sq, la, false, hd⟩, PC.sleeping⟩ Label.actor =
            ⟨⟨q, sq, la, false, hd⟩, PC.sleeping⟩ from by
          simp [step, actorStep]]
        exact ih _ hrest rfl rfl
      · rw [run_cons,
          show step ⟨⟨q, sq, la, false, hd⟩, PC.sleeping⟩ Label.quit =
            ⟨⟨q, true, la, false, hd⟩, PC.sleeping⟩ from rfl]
        exact ih _ hrest rfl rfl

/-- C4: quit() sets only m_should_quit: the queue, the wake flag, the
launched flag and the handle trace are untouched and the wait predicate of
sleep() (which reads only m_should_wake) is unchanged; consequently an
actor asleep in sleep() that receives quit() but never wake() stays
blocked at the sleep() call forever, handling and draining nothing, for
any number of scheduled steps. -/
theorem quit_only_sets_quit_flag (s : ConnectionThread) (ls : List Label)
    (hls : ∀ l ∈ ls, l = Label.actor ∨ l = Label.quit)
    (hw : s.m_should_wake = false) :
    s.quit.m_packet_queue = s.m_packet_queue ∧
      s.quit.m_should_wake = s.m_should_wake ∧
      s.quit.handled = s.handled ∧
      s.quit.m_launched = s.m_launched ∧
      s.quit.sleepPredicate = s.sleepPredicate ∧
      (run ⟨s, PC.sleeping⟩ ls).pc = PC.sleeping ∧
      (run ⟨s, PC.sleeping⟩ ls).ct.handled = s.handled ∧
      (run ⟨s, PC.sleeping⟩ ls).ct.m_packet_queue = s.m_packet_queue := by
  obtain ⟨h1, h2, h3, h4⟩ := blocked_run ls ⟨s, PC.sleeping⟩ hls rfl hw
  exact ⟨rfl, rfl, rfl, rfl, rfl, h1, h4, h3⟩

/-- A launched actor asleep with one pending packet and the wake flag
clear. -/
def quietCT : ConnectionThread := ⟨[5], false, true, false, []⟩

/-- quit() delivered to the sleeping actor, then two scheduled worker
steps, with no wake(). -/
def quietSched : List Label := [Label.quit, Label.actor, Label.actor]

theorem quit_only_sets_quit_flag_witness :
    quietCT.quit.m_packet_queue = quietCT.m_packet_queue ∧
      quietCT.quit.m_should_wake = quietCT.m_should_wake ∧
      quietCT.quit.handled = quietCT.handled ∧
      quietCT.quit.m_launched = quietCT.m_launched ∧
      quietCT.quit.sleepPredicate = quietCT.sleepPredicate ∧
      (run ⟨quietCT, PC.sleeping⟩ quietSched).pc = PC.sleeping ∧
      (run ⟨quietCT, PC.sleeping⟩ quietSched).ct.handled = quietCT.handled ∧
      (run ⟨quietCT, PC.sleeping⟩ quietSched).ct.m_packet_queue =
        quietCT.m_packet_queue :=
  quit_only_sets_quit_flag quietCT quietSched (by decide) rfl

lemma step_quit_flag (c : Config) (l : Label) :
    (step c l).ct.m_should_quit = (c.ct.m_should_quit || l.isQuit) := by
  rcases c with ⟨⟨q, sq, la, sw, hd⟩, pc⟩
  cases l with
  | enq p => simp [step, ConnectionThread.queue_packet, Label.isQuit]
  | wake => simp [step, ConnectionThread.wake, Label.isQuit]
  | quit => simp [step, ConnectionThread.quit, Label.isQuit]
  | actor =>
      cases pc with
      | sleeping => cases sw <;> simp [step, actorStep, Label.isQuit]
      | clearWake => simp [step, actorStep, Label.isQuit]
      | drain =>
          cases q with
          | nil =>
              simp [step, actorStep, ConnectionThread.queue_size, Label.isQuit]
          | cons p rest =>
              simp [step, actorStep, ConnectionThread.queue_size,
                ConnectionThread.dequeue_packet, ConnectionThread.handle,
                Label.isQuit]
      | checkQuit =>
          cases sq <;>
            simp [step, actorStep, ConnectionThread.should_quit, Label.isQuit]
      | done => simp [step, actorStep, Label.isQuit]

lemma run_quit_flag (ls : List Label) :
    ∀ c : Config, (run c ls).ct.m_should_quit =
      (c.ct.m_should_quit || ls.any Label.isQuit) := by
  induction ls with
  | nil => intro c; simp [run]
  | cons l ls ih =>
      intro c
      rw [run_cons, ih (step c l), step_quit_flag]
      simp [Bool.or_assoc]

/-- C10: m_should_quit is a one-way latch: queue_packet, dequeue_packet,
wake, handle and launch leave it unchanged, quit() sets it to true, and
across any schedule of public operations and run()-loop steps its value is
exactly the initial value joined with whether quit() was ever called, so
once quit() has run, should_quit() returns true forever after. -/
theorem quit_flag_one_way_latch (s : ConnectionThread) (p : Nat) (c : Config)
    (ls : List Label) :
    (s.queue_packet p).m_should_quit = s.m_should_quit ∧
      s.dequeue_packet.2.m_should_quit = s.m_should_quit ∧
      s.wake.m_should_quit = s.m_should_quit ∧
      (s.handle p).m_should_quit = s.m_should_quit ∧
      s.launch.m_should_quit = s.m_should_quit ∧
      s.should_quit = s.m_should_quit ∧
      s.quit.m_should_quit = true ∧
      (run c ls).ct.should_quit = (c.ct.m_should_quit || ls.any Label.isQuit) := by
  refine ⟨rfl, ?_, rfl, rfl, rfl, rfl, rfl, run_quit_flag ls c⟩
  rcases s with ⟨q, sq, la, sw, hd⟩
  cases q <;> rfl

/-- The Packet wrapper (enetcpp.hpp): the wrapped ENetPacket pointer
(identified by a number) and the m_owns_memory flag, true on construction;
the destructor frees the buffer exactly when m_owns_memory is still true. -/
structure Packet where
  id : Nat
  m_owns_memory : Bool := true
deriving DecidableEq

/-- release_ownership: clear m_owns_memory so the wrapper no longer frees
the buffer (the network layer owns it from now on). -/
def Packet.release_ownership (p : Packet) : Packet :=
  { p with m_owns_memory := false }

/-- Outcome of Peer::send (enetcpp.hpp lines 363 to 369).  The failed case
is the throw of std::runtime_error with message Packet send failed,
carrying the Packet wrapper in the state the caller observes at the
throw. -/
inductive SendResult
  | ok (pkt : Packet)
  | failed (pkt : Packet)
deriving DecidableEq

/-- The Packet wrapper as the caller observes it after send returns or
throws. -/
def SendResult.packet : SendResult → Packet
  | SendResult.ok p => p
  | SendResult.failed p => p

/-- Peer::send: call enet_peer_send (external collaborator, its return
code rc is a parameter, 0 meaning success); on 0 call release_ownership on
the packet and return; otherwise throw without touching the packet. -/
def Peer.send (rc : Int) (pkt : Packet) : SendResult :=
  if rc = 0 then SendResult.ok pkt.release_ownership
  else SendResult.failed pkt

/-- C6: Peer::send transfers ownership to the network layer exactly when
enet_peer_send reports success: on return code 0 the wrapper has
release_ownership applied (m_owns_memory false); on any nonzero code send
throws and the packet reaches the caller with its ownership state
untouched (still owning the buffer), so it may be retried or released. -/
theorem send_ownership_transfer_iff_success (rc : Int) (pkt : Packet)
    (h : pkt.m_owns_memory = true) :
    ((Peer.send rc pkt).packet.m_owns_memory = false ↔ rc = 0) ∧
      (Peer.send rc pkt = SendResult.failed pkt ↔ rc ≠ 0) ∧
      (rc = 0 → Peer.send rc pkt = SendResult.ok pkt.release_ownership) := by
  by_cases hrc : rc = 0 <;>
    simp [Peer.send, hrc, SendResult.packet, Packet.release_ownership, h]

theorem send_ownership_transfer_iff_success_witness :
    ((Peer.send 1 ⟨0, true⟩).packet.m_owns_memory = false ↔ (1 : Int) = 0) ∧
      (Peer.send 1 ⟨0, true⟩ = SendResult.failed ⟨0, true⟩ ↔ (1 : Int) ≠ 0) ∧
      ((1 : Int) = 0 →
        Peer.send 1 ⟨0, true⟩ = SendResult.ok (Packet.release_ownership ⟨0, true⟩)) :=
  send_ownership_transfer_iff_success 1 ⟨0, true⟩ rfl

/-- Behaviors a receive-event handler can exhibit on one event.  delivered
carries the updated actor configuration; nullDeref is a call of
queue_packet through a null attachment pointer (a crash, undefined
behavior); reported would be an error surfaced to the caller and dropped a
silent discard, neither of which this code ever produces. -/
inductive ReceiveOutcome
  | delivered (c : Config)
  | nullDeref
  | reported
  | dropped
deriving DecidableEq

/-- on_event(EventReceive&) of HostMT (enetcpp-mt.hpp lines 302 to 307):
release_ownership on the event packet, cast the peer attachment to a
ConnectionThread pointer with no null check, queue_packet the raw packet
on it, wake it.  A null attachment is therefore dereferenced. -/
def HostMT.on_event_receive (att : Option Config) (pkt : Packet) :
    Packet × ReceiveOutcome :=
  let released := pkt.release_ownership
  match att with
  | none => (released, ReceiveOutcome.nullDeref)
  | some c =>
      (released, ReceiveOutcome.delivered ⟨(c.ct.queue_packet pkt.id).wake, c.pc⟩)

/-- C7 counterexample: with no mapped actor (null attachment) the receive
handler does not report anything to the caller; it dereferences the null
attachment. -/
theorem receive_null_attachment_not_reported :
    (HostMT.on_event_receive none { id := 0 }).2 = ReceiveOutcome.nullDeref ∧
      ReceiveOutcome.nullDeref ≠ ReceiveOutcome.reported := by decide

/-- C7 amended: the receive handler performs no null check on the peer
attachment: when an actor is mapped it releases packet ownership, appends
the packet at the tail of that actor queue and sets its wake flag; when no
actor is mapped it dereferences the null attachment (a crash, not a
reported error and not a silent drop), having already released packet
ownership. -/
theorem receive_no_null_check (pkt : Packet) (c : Config) :
    (HostMT.on_event_receive none pkt).2 = ReceiveOutcome.nullDeref ∧
      (HostMT.on_event_receive none pkt).2 ≠ ReceiveOutcome.reported ∧
      (HostMT.on_event_receive none pkt).2 ≠ ReceiveOutcome.dropped ∧
      (HostMT.on_event_receive none pkt).1.m_owns_memory = false ∧
      ∃ c', (HostMT.on_event_receive (some c) pkt).2 = ReceiveOutcome.delivered c' ∧
        c'.ct.m_packet_queue = c.ct.m_packet_queue ++ [pkt.id] ∧
        c'.ct.m_should_wake = true ∧
        c'.ct.handled = c.ct.handled := by
  refine ⟨rfl, by simp [HostMT.on_event_receive], by simp [HostMT.on_event_receive],
    rfl, ⟨(c.ct.queue_packet pkt.id).wake, c.pc⟩, rfl, ?_, rfl, rfl⟩
  simp [ConnectionThread.queue_packet, ConnectionThread.wake]

theorem receive_no_null_check_witness :
    (HostMT.on_event_receive none ⟨9, true⟩).2 = ReceiveOutcome.nullDeref ∧
      (HostMT.on_event_receive none ⟨9, true⟩).2 ≠ ReceiveOutcome.reported ∧
      (HostMT.on_event_receive none ⟨9, true⟩).2 ≠ ReceiveOutcome.dropped ∧
      (HostMT.on_event_receive none ⟨9, true⟩).1.m_owns_memory = false ∧
      ∃ c', (HostMT.on_event_receive (some c0) ⟨9, true⟩).2 =
          ReceiveOutcome.delivered c' ∧
        c'.ct.m_packet_queue = c0.ct.m_packet_queue ++ [(⟨9, true⟩ : Packet).id] ∧
        c'.ct.m_should_wake = true ∧
        c'.ct.handled = c0.ct.handled :=
  receive_no_null_check ⟨9, true⟩ c0

/-- Outcome of a join() call: joined means m_thread.join() was performed;
usageError is the throw of std::runtime_error (message: thread joined but
not launched, respectively Server thread joined but not launched), with no
join performed. -/
inductive JoinOutcome
  | joined
  | usageError
deriving DecidableEq

/-- ConnectionThread::join (enetcpp-mt.hpp lines 153 to 159): join the
worker thread when m_launched is set, otherwise throw. -/
def ConnectionThread.join (s : ConnectionThread) : JoinOutcome :=
  if s.m_launched then JoinOutcome.joined else JoinOutcome.usageError

/-- Supervisor-side state of HostMT: its own quit flag and launched flag
(enetcpp-mt.hpp lines 263 to 267). -/
structure HostMTState where
  m_should_quit : Bool := false
  m_launched : Bool := false
deriving DecidableEq

/-- HostMT::launch (lines 357 to 360): set m_launched and start the
supervisor thread. -/
def HostMTState.launch (h : HostMTState) : HostMTState :=
  { h with m_launched := true }

/-- HostMT::join (lines 345 to 351): join the supervisor thread when
m_launched is set, otherwise throw. -/
def HostMTState.join (h : HostMTState) : JoinOutcome :=
  if h.m_launched then JoinOutcome.joined else JoinOutcome.usageError

/-- C8: join() on a never-launched ConnectionThread or HostMT throws
std::runtime_error to the caller and performs no join (the two outcomes
are distinct), while join() after launch() joins the thread and raises no
error. -/
theorem join_before_launch_reports_error (s : ConnectionThread)
    (h : HostMTState) :
    ConnectionThread.join { s with m_launched := false } = JoinOutcome.usageError ∧
      ConnectionThread.join s.launch = JoinOutcome.joined ∧
      HostMTState.join { h with m_launched := false } = JoinOutcome.usageError ∧
      HostMTState.join h.launch = JoinOutcome.joined ∧
      JoinOutcome.usageError ≠ JoinOutcome.joined := by
  refine ⟨?_, ?_, ?_, ?_, by simp⟩ <;>
    simp [ConnectionThread.join, ConnectionThread.launch, HostMTState.join,
      HostMTState.launch]

/-- A ConnectionThread that has never been launched. -/
def idleCT : ConnectionThread := ⟨[], false, false, false, []⟩

/-- A HostMT that has never been launched. -/
def idleHost : HostMTState := ⟨false, false⟩

theorem join_before_launch_reports_error_witness :
    ConnectionThread.join { idleCT with m_launched := false } =
        JoinOutcome.usageError ∧
      ConnectionThread.join idleCT.launch = JoinOutcome.joined ∧
      HostMTState.join { idleHost with m_launched := false } =
        JoinOutcome.usageError ∧
      HostMTState.join idleHost.launch = JoinOutcome.joined ∧
      JoinOutcome.usageError ≠ JoinOutcome.joined :=
  join_before_launch_reports_error idleCT idleHost

/-- The locks of the process, as the claims discuss them: the protected
m_mutex of Host guarding the ENetHost (the network resource), and the
per-actor m_mutex of each ConnectionThread guarding its queue and flags. -/
inductive Lock
  | hostMutex
  | actorMutex (i : Nat)
deriving DecidableEq

/-- Locks acquired by Host::service (enetcpp.hpp lines 562 to 593): one
lock_guard on m_mutex around enet_host_service; the event dispatch that
follows runs outside the guard. -/
def Host.service_locks : List Lock := [Lock.hostMutex]

/-- Locks acquired by Host::flush (lines 633 to 637): one lock_guard on
m_mutex around enet_host_flush. -/
def Host.flush_locks : List Lock := [Lock.hostMutex]

/-- Locks acquired by Host::broadcast (lines 650 to 656): one lock_guard
on m_mutex. -/
def Host.broadcast_locks : List Lock := [Lock.hostMutex]

/-- Locks acquired by Peer::send (lines 363 to 369): the body calls
enet_peer_send directly, with no lock_guard of any kind. -/
def Peer.send_locks : List Lock := []

/-- Locks held while run() invokes the virtual handle() callback
(enetcpp-mt.hpp lines 235 to 241): the lock_guard inside dequeue_packet is
released before handle is called, so the callback runs with no lock
held. -/
def ConnectionThread.handle_call_locks : List Lock := []

/-- C5: the send path holds no lock at all: Peer::send reaches
enet_peer_send with an empty lock set, while Host::service and Host::flush
each guard the shared ENetHost with the host mutex; handle() is invoked
with no actor queue lock held, so a send from inside handle() indeed never
holds an actor lock, but it is also not guarded by any lock of its own and
so is not mutually excluded from the supervisor polling and flushing the
same ENetHost. -/
theorem send_path_acquires_no_lock :
    Peer.send_locks = [] ∧
      ConnectionThread.handle_call_locks = [] ∧
      Host.service_locks = [Lock.hostMutex] ∧
      Host.flush_locks = [Lock.hostMutex] :=
  ⟨rfl, rfl, rfl, rfl⟩

end ENetCPP
